import Mathlib

/-!
Verification of `qiime/index.py` (`compute_index`): a per-sample dysbiosis
index computed from a sparse annotated abundance table.

The embedding models a biom table as a list of observations (rows), each
carrying per-observation metadata (an association list from metadata keys to
lists of string tokens) and a row of rational abundance values aligned with
the table's sample axis (a list of sample identifiers).  Filtering on the
observation axis keeps the sample axis intact, exactly as `biom.Table.filter`
with `axis='observation'` does.

IEEE-754 results of `numpy.log` on a nonnegative ratio are represented
symbolically by `Score`: `Score.nan` for NaN (the `dec_count == 0` branch),
`Score.negInf` for `log 0 = -inf`, and `Score.ln q` for the real number
`log q` with `q > 0` (log is injective on positives, so equality of scores is
faithfully decided on the rational argument).  Python float equality `==` is
modelled by `Score.feq`, which is false whenever either side is NaN.

`compute_index` is a Python generator; the errors raised before the loop and
the yielded pairs are modelled by `Except Err (List (String × Score))`: an
error result carries no pairs, mirroring fail-fast validation.  The iteration
order over `ids_in_common` (an unordered Python set) is made explicit as the
`ord` parameter of `compute_indexWithOrder`; `compute_index` instantiates it
with a canonical enumeration of the intersection.
-/

/-- One observation (row) of the abundance table: its id, its metadata
(association list from metadata key to the list of tokens stored there, e.g.
a taxonomy annotation), and its abundance values, one per sample, aligned
with the table's sample axis. -/
structure Obs where
  id : String
  md : List (String × List String)
  values : List ℚ
deriving Repr, DecidableEq

/-- The abundance table: a sample axis (list of sample identifiers) and a
list of observations whose `values` rows are aligned with `sampleIds`. -/
structure Table where
  sampleIds : List String
  obs : List Obs
deriving Repr, DecidableEq

/-- Errors `compute_index` can raise: the explicit `KeyError` and
`ValueError` raises, plus the `IndexError` a zero-observation table would
produce at `table.metadata(axis='observation')[0]`. -/
inductive Err where
  | keyError : String → Err
  | valueError : String → Err
  | indexError : Err
deriving Repr, DecidableEq

/-- Symbolic IEEE-754 double produced for one sample: NaN, -infinity
(`numpy.log 0`), or the real value `log q` for a positive rational `q`,
kept symbolically as `ln q`. -/
inductive Score where
  | nan : Score
  | negInf : Score
  | ln : ℚ → Score
deriving Repr, DecidableEq

/-- `numpy.log` on a rational argument: `log 0 = -inf`, `log` of a negative
number is NaN, `log` of a positive `q` is the real `ln q` (symbolic). -/
def npLog (q : ℚ) : Score :=
  if q = 0 then Score.negInf else if q < 0 then Score.nan else Score.ln q

/-- The score emitted for one sample, from the two group sums: the source's
`if dec_count == 0: yield nan / else: yield log(inc_count / dec_count)`. -/
def computeScore (inc_count dec_count : ℚ) : Score :=
  if dec_count = 0 then Score.nan else npLog (inc_count / dec_count)

/-- Python float equality `==` on scores: false whenever either side is NaN;
on finite/infinite values it is ordinary equality (log is injective on
positive rationals, so comparing the symbolic arguments is exact). -/
def Score.feq : Score → Score → Bool
  | Score.nan, _ => false
  | _, Score.nan => false
  | Score.negInf, Score.negInf => true
  | Score.ln a, Score.ln b => a == b
  | Score.negInf, Score.ln _ => false
  | Score.ln _, Score.negInf => false

/-- The filter predicate `lambda v, i, md: set(md[key]) & group` applied to
one observation: truthy iff the token set stored at `key` in the
observation's metadata intersects `group`.  (An observation lacking `key`
would raise `KeyError` inside the filter; `compute_indexWithOrder` models
that case separately, so here it simply fails the predicate.) -/
def matchesGroup (key : String) (group : Finset String) (o : Obs) : Bool :=
  match o.md.lookup key with
  | some toks => decide ((toks.toFinset ∩ group).Nonempty)
  | none => false

/-- `table.filter(f, axis='observation', inplace=False)`: keep the
observations passing the predicate; the sample axis is untouched. -/
def filterTable (key : String) (group : Finset String) (t : Table) : Table :=
  { t with obs := t.obs.filter (matchesGroup key group) }

/-- Sum of all abundance values of sample `id_` across the table's
observation rows: `t.data(id_, dense=False).sum()`. -/
def sampleSum (t : Table) (id_ : String) : ℚ :=
  (t.obs.map (fun o => o.values.getD (t.sampleIds.indexOf id_) 0)).sum

/-- `ids_in_common = set(inc_t.ids()) & set(dec_t.ids())`, enumerated as a
duplicate-free list: the sample identifiers present in both tables' sample
axes. -/
def idsInCommon (t1 t2 : Table) : List String :=
  (t1.sampleIds.filter (fun i => decide (i ∈ t2.sampleIds))).dedup

/-- `compute_index`, generalised over the enumeration order `ord` of
`ids_in_common` (Python iterates an unordered set).  Faithful to the source:
check `key` against the first observation's metadata, filter the observation
axis by the increased and the decreased predicates (a missing `key` on any
observation raising `KeyError` inside the filter), reject an empty filtered
group with `ValueError`, then emit one `(sample id, score)` pair per
identifier of `ord`. -/
def compute_indexWithOrder (table : Table) (increased decreased : Finset String)
    (key : String) (ord : List String) : Except Err (List (String × Score)) :=
  match table.obs.head? with
  | none => Except.error Err.indexError
  | some o0 =>
    if (o0.md.lookup key).isSome = false then
      Except.error (Err.keyError (key ++ " is not present"))
    else if table.obs.all (fun o => (o.md.lookup key).isSome) = false then
      Except.error (Err.keyError key)
    else if (filterTable key increased table).obs.isEmpty then
      Except.error (Err.valueError "None of the increased items were found")
    else if (filterTable key decreased table).obs.isEmpty then
      Except.error (Err.valueError "None of the decreased items were found")
    else
      Except.ok (ord.map fun id_ =>
        (id_, computeScore (sampleSum (filterTable key increased table) id_)
                           (sampleSum (filterTable key decreased table) id_)))

/-- `compute_index(table, increased, decreased, key)`: the generator's
observable behaviour, iterating `ids_in_common` in a canonical order. -/
def compute_index (table : Table) (increased decreased : Finset String)
    (key : String) : Except Err (List (String × Score)) :=
  compute_indexWithOrder table increased decreased key
    (idsInCommon (filterTable key increased table) (filterTable key decreased table))

/-- First observation of the concrete witness table: annotated with token
`A` (increased group), abundances `4, 7, 0` in samples `S1, S2, S3`. -/
def oW1 : Obs := { id := "O1", md := [("taxonomy", ["A"])], values := [4, 7, 0] }

/-- Second observation of the concrete witness table: annotated with token
`B` (decreased group), abundances `2, 0, 5` in samples `S1, S2, S3`. -/
def oW2 : Obs := { id := "O2", md := [("taxonomy", ["B"])], values := [2, 0, 5] }

/-- A concrete three-sample table used to witness the theorems. -/
def tW : Table := { sampleIds := ["S1", "S2", "S3"], obs := [oW1, oW2] }

/-- Concrete evaluation of `compute_index` on the witness table:
`S1` gets `ln(4/2) = ln 2`, `S2` gets NaN (decreased sum is 0), `S3` gets
-infinity (increased sum is 0, decreased sum is 5). -/
theorem tW_eval : compute_index tW {"A"} {"B"} "taxonomy" =
    Except.ok [("S1", Score.ln 2), ("S2", Score.nan), ("S3", Score.negInf)] := by
  have h : compute_index tW {"A"} {"B"} "taxonomy" =
      Except.ok [("S1", computeScore (4 + 0) (2 + 0)),
                 ("S2", computeScore (7 + 0) (0 + 0)),
                 ("S3", computeScore (0 + 0) (5 + 0))] := rfl
  rw [h]
  norm_num [computeScore, npLog]

/-- Concrete evaluation with the reversed enumeration order of
`ids_in_common`: same pairs, reversed. -/
theorem tW_eval_rev : compute_indexWithOrder tW {"A"} {"B"} "taxonomy" ["S3", "S2", "S1"] =
    Except.ok [("S3", Score.negInf), ("S2", Score.nan), ("S1", Score.ln 2)] := by
  have h : compute_indexWithOrder tW {"A"} {"B"} "taxonomy" ["S3", "S2", "S1"] =
      Except.ok [("S3", computeScore (0 + 0) (5 + 0)),
                 ("S2", computeScore (7 + 0) (0 + 0)),
                 ("S1", computeScore (4 + 0) (2 + 0))] := rfl
  rw [h]
  norm_num [computeScore, npLog]

/-- A successful run emits exactly one pair per identifier of the iteration
order: the identifier paired with the score computed from the two filtered
group sums for that sample. -/
theorem compute_indexWithOrder_ok_shape (t : Table) (increased decreased : Finset String)
    (key : String) (ord : List String) (res : List (String × Score))
    (h : compute_indexWithOrder t increased decreased key ord = Except.ok res) :
    res = ord.map (fun id_ =>
      (id_, computeScore (sampleSum (filterTable key increased t) id_)
                         (sampleSum (filterTable key decreased t) id_))) := by
  unfold compute_indexWithOrder at h
  split at h
  · exact Except.noConfusion h
  · split at h
    · exact Except.noConfusion h
    · split at h
      · exact Except.noConfusion h
      · split at h
        · exact Except.noConfusion h
        · split at h
          · exact Except.noConfusion h
          · injection h with h2
            exact h2.symm

/-- Shape of a successful `compute_index` run: one pair per identifier in
`ids_in_common`. -/
theorem compute_index_ok_shape (t : Table) (increased decreased : Finset String)
    (key : String) (res : List (String × Score))
    (h : compute_index t increased decreased key = Except.ok res) :
    res = (idsInCommon (filterTable key increased t) (filterTable key decreased t)).map
      (fun id_ =>
        (id_, computeScore (sampleSum (filterTable key increased t) id_)
                           (sampleSum (filterTable key decreased t) id_))) :=
  compute_indexWithOrder_ok_shape t increased decreased key _ res h

/-- Projecting the emitted pairs to their sample identifiers recovers the
iteration order. -/
theorem map_fst_map_pair {β : Type} (f : String → β) (l : List String) :
    (l.map (fun id_ => (id_, f id_))).map Prod.fst = l := by
  rw [List.map_map]
  exact List.map_id' l

/-- The first observation belongs to the table's observation list. -/
theorem head_mem_obs (t : Table) (o0 : Obs) (h0 : t.obs.head? = some o0) :
    o0 ∈ t.obs := by
  cases hobs : t.obs with
  | nil => rw [hobs] at h0; exact Option.noConfusion h0
  | cons a l =>
    rw [hobs] at h0
    simp only [List.head?_cons, Option.some.injEq] at h0
    exact h0 ▸ List.mem_cons_self a l

/-- If `key` is missing from the first observation's metadata, the run stops
with the explicit `KeyError`. -/
theorem compute_index_error_of_missing_key (t : Table) (increased decreased : Finset String)
    (key : String) (o0 : Obs) (h0 : t.obs.head? = some o0)
    (hk : o0.md.lookup key = none) :
    compute_index t increased decreased key =
      Except.error (Err.keyError (key ++ " is not present")) := by
  unfold compute_index compute_indexWithOrder
  rw [h0]
  simp [hk]

/-- If the first observation has `key` but some observation lacks it, the
filter's dictionary access raises `KeyError`. -/
theorem compute_index_error_of_partial_key (t : Table) (increased decreased : Finset String)
    (key : String) (o0 : Obs) (h0 : t.obs.head? = some o0)
    (hk : (o0.md.lookup key).isSome = true)
    (hall : t.obs.all (fun o => (o.md.lookup key).isSome) = false) :
    compute_index t increased decreased key = Except.error (Err.keyError key) := by
  unfold compute_index compute_indexWithOrder
  rw [h0]
  simp [hk, hall]

/-- If every observation has `key` and the increased filter keeps nothing,
the run stops with the increased-group `ValueError`. -/
theorem compute_index_error_of_inc_empty (t : Table) (increased decreased : Finset String)
    (key : String) (o0 : Obs) (h0 : t.obs.head? = some o0)
    (hall : t.obs.all (fun o => (o.md.lookup key).isSome) = true)
    (hemp : (filterTable key increased t).obs = []) :
    compute_index t increased decreased key =
      Except.error (Err.valueError "None of the increased items were found") := by
  have hk : (o0.md.lookup key).isSome = true := by
    simpa using List.all_eq_true.mp hall o0 (head_mem_obs t o0 h0)
  unfold compute_index compute_indexWithOrder
  rw [h0]
  simp [hk, hall, hemp]

/-- If every observation has `key`, the increased filter keeps something but
the decreased filter keeps nothing, the run stops with the decreased-group
`ValueError`. -/
theorem compute_index_error_of_dec_empty (t : Table) (increased decreased : Finset String)
    (key : String) (o0 : Obs) (h0 : t.obs.head? = some o0)
    (hall : t.obs.all (fun o => (o.md.lookup key).isSome) = true)
    (hne : (filterTable key increased t).obs ≠ [])
    (hemp : (filterTable key decreased t).obs = []) :
    compute_index t increased decreased key =
      Except.error (Err.valueError "None of the decreased items were found") := by
  have hk : (o0.md.lookup key).isSome = true := by
    simpa using List.all_eq_true.mp hall o0 (head_mem_obs t o0 h0)
  unfold compute_index compute_indexWithOrder
  rw [h0]
  simp [hk, hall, hne, hemp]

/-- C1: for every sample id in the intersection of the two filtered tables'
sample axes whose decreased-group sum is nonzero, `compute_index` emits the
pair `(id, ln(inc_count / dec_count))` (the numpy log of the ratio), where
`inc_count` and `dec_count` are the per-sample sums over the increased- and
decreased-filtered tables' observation rows. -/
theorem compute_index_emits_log_ratio (t : Table) (increased decreased : Finset String)
    (key : String) (res : List (String × Score))
    (h : compute_index t increased decreased key = Except.ok res) (id_ : String)
    (hid : id_ ∈ idsInCommon (filterTable key increased t) (filterTable key decreased t))
    (hdec : sampleSum (filterTable key decreased t) id_ ≠ 0) :
    (id_, npLog (sampleSum (filterTable key increased t) id_ /
                 sampleSum (filterTable key decreased t) id_)) ∈ res := by
  have hres := compute_index_ok_shape t increased decreased key res h
  subst hres
  refine List.mem_map.mpr ⟨id_, hid, ?_⟩
  simp [computeScore, hdec]

/-- C1 witness: on the concrete table, sample `S1` has increased sum 4 and
decreased sum 2, and the emitted pair is `(S1, ln(4/2))`. -/
theorem compute_index_emits_log_ratio_witness :
    ("S1", npLog (sampleSum (filterTable "taxonomy" ({"A"} : Finset String) tW) "S1" /
                  sampleSum (filterTable "taxonomy" ({"B"} : Finset String) tW) "S1")) ∈
      [("S1", Score.ln 2), ("S2", Score.nan), ("S3", Score.negInf)] :=
  compute_index_emits_log_ratio tW {"A"} {"B"} "taxonomy" _ tW_eval "S1" (by decide)
    (by rw [show sampleSum (filterTable "taxonomy" ({"B"} : Finset String) tW) "S1" = 2 + 0
              from rfl]
        simp)

/-- C2: for every sample id in the intersection whose decreased-group sum is
0, `compute_index` emits `(id, NaN)` — regardless of the increased sum — and
any score emitted for that sample is NaN, with `score == score` false. -/
theorem compute_index_zero_dec_yields_nan (t : Table) (increased decreased : Finset String)
    (key : String) (res : List (String × Score))
    (h : compute_index t increased decreased key = Except.ok res) (id_ : String)
    (hid : id_ ∈ idsInCommon (filterTable key increased t) (filterTable key decreased t))
    (hdec : sampleSum (filterTable key decreased t) id_ = 0) :
    (id_, Score.nan) ∈ res ∧
    ∀ s : Score, (id_, s) ∈ res → s = Score.nan ∧ Score.feq s s = false := by
  have hres := compute_index_ok_shape t increased decreased key res h
  subst hres
  constructor
  · refine List.mem_map.mpr ⟨id_, hid, ?_⟩
    simp [computeScore, hdec]
  · intro s hs
    obtain ⟨a, _, heq⟩ := List.mem_map.mp hs
    obtain ⟨ha, hsc⟩ := Prod.mk.injEq .. ▸ heq
    subst ha
    have : s = Score.nan := by rw [← hsc]; simp [computeScore, hdec]
    exact ⟨this, by rw [this]; rfl⟩

/-- C2 witness: on the concrete table, sample `S2` has increased sum 7 but
decreased sum 0; the emitted pair is `(S2, NaN)` and NaN is not `==`-equal
to itself. -/
theorem compute_index_zero_dec_yields_nan_witness :
    ("S2", Score.nan) ∈ [("S1", Score.ln 2), ("S2", Score.nan), ("S3", Score.negInf)] ∧
    ∀ s : Score,
      ("S2", s) ∈ [("S1", Score.ln 2), ("S2", Score.nan), ("S3", Score.negInf)] →
      s = Score.nan ∧ Score.feq s s = false :=
  compute_index_zero_dec_yields_nan tW {"A"} {"B"} "taxonomy" _ tW_eval "S2" (by decide)
    (by rw [show sampleSum (filterTable "taxonomy" ({"B"} : Finset String) tW) "S2" = 0 + 0
              from rfl]
        simp)

/-- C3: for every table whose first observation's metadata lacks the field
named `key`, and any `increased`/`decreased` sets, `compute_index` fails
with a `KeyError` whose message names the missing key, and produces no
result entries. -/
theorem compute_index_missing_key_fails (t : Table) (increased decreased : Finset String)
    (key : String) (o0 : Obs) (h0 : t.obs.head? = some o0)
    (hk : o0.md.lookup key = none) :
    compute_index t increased decreased key =
      Except.error (Err.keyError (key ++ " is not present")) ∧
    ∀ res : List (String × Score),
      compute_index t increased decreased key ≠ Except.ok res := by
  have h := compute_index_error_of_missing_key t increased decreased key o0 h0 hk
  exact ⟨h, fun res hres => by rw [h] at hres; exact Except.noConfusion hres⟩

/-- C3 witness: the concrete table's observations lack key `foo`, so the run
fails with `KeyError` naming `foo` and yields nothing. -/
theorem compute_index_missing_key_fails_witness :
    compute_index tW {"A"} {"B"} "foo" =
      Except.error (Err.keyError ("foo" ++ " is not present")) ∧
    ∀ res : List (String × Score),
      compute_index tW {"A"} {"B"} "foo" ≠ Except.ok res :=
  compute_index_missing_key_fails tW {"A"} {"B"} "foo" oW1 rfl rfl

/-- C4: under a uniform metadata schema, if the increased-filtered table has
zero observations the run fails with the increased-group `ValueError`
("no increased items found"); if the increased filter kept something but the
decreased-filtered table has zero observations, the run fails with the
decreased-group `ValueError`; in both cases no result entries are
produced. -/
theorem compute_index_empty_group_fails (t : Table) (increased decreased : Finset String)
    (key : String) (o0 : Obs) (h0 : t.obs.head? = some o0)
    (hall : t.obs.all (fun o => (o.md.lookup key).isSome) = true) :
    ((filterTable key increased t).obs = [] →
      compute_index t increased decreased key =
        Except.error (Err.valueError "None of the increased items were found") ∧
      ∀ res : List (String × Score),
        compute_index t increased decreased key ≠ Except.ok res) ∧
    ((filterTable key increased t).obs ≠ [] → (filterTable key decreased t).obs = [] →
      compute_index t increased decreased key =
        Except.error (Err.valueError "None of the decreased items were found") ∧
      ∀ res : List (String × Score),
        compute_index t increased decreased key ≠ Except.ok res) := by
  constructor
  · intro hemp
    have h := compute_index_error_of_inc_empty t increased decreased key o0 h0 hall hemp
    exact ⟨h, fun res hres => by rw [h] at hres; exact Except.noConfusion hres⟩
  · intro hne hemp
    have h := compute_index_error_of_dec_empty t increased decreased key o0 h0 hall hne hemp
    exact ⟨h, fun res hres => by rw [h] at hres; exact Except.noConfusion hres⟩

/-- C4 witness: on the concrete table, the set `{Z}` matches no observation:
as increased group the run fails with the increased-group message, and as
decreased group (with increased `{A}` matching) it fails with the
decreased-group message. -/
theorem compute_index_empty_group_fails_witness :
    (compute_index tW {"Z"} {"B"} "taxonomy" =
       Except.error (Err.valueError "None of the increased items were found")) ∧
    (compute_index tW {"A"} {"Z"} "taxonomy" =
       Except.error (Err.valueError "None of the decreased items were found")) :=
  ⟨((compute_index_empty_group_fails tW {"Z"} {"B"} "taxonomy" oW1 rfl rfl).1 rfl).1,
   ((compute_index_empty_group_fails tW {"A"} {"Z"} "taxonomy" oW1 rfl rfl).2
      (by decide) rfl).1⟩

/-- C5: every emitted entry is for a sample id present in both filtered
tables' sample axes; each such sample gets exactly one entry; and if the two
filtered tables shared no sample identifier, the result would be empty. -/
theorem compute_index_entries_in_common_samples (t : Table)
    (increased decreased : Finset String) (key : String) (res : List (String × Score))
    (h : compute_index t increased decreased key = Except.ok res) :
    (∀ p ∈ res, p.1 ∈ (filterTable key increased t).sampleIds ∧
                p.1 ∈ (filterTable key decreased t).sampleIds) ∧
    (∀ id_ : String, id_ ∈ (filterTable key increased t).sampleIds →
      id_ ∈ (filterTable key decreased t).sampleIds →
      (res.map Prod.fst).count id_ = 1) ∧
    ((∀ id_ : String, ¬(id_ ∈ (filterTable key increased t).sampleIds ∧
                        id_ ∈ (filterTable key decreased t).sampleIds)) → res = []) := by
  have hres := compute_index_ok_shape t increased decreased key res h
  subst hres
  refine ⟨?_, ?_, ?_⟩
  · intro p hp
    obtain ⟨a, ha, rfl⟩ := List.mem_map.mp hp
    have ha2 := List.mem_filter.mp (List.mem_dedup.mp ha)
    exact ⟨ha2.1, by simpa using ha2.2⟩
  · intro id_ h1 h2
    rw [map_fst_map_pair]
    have hmem : id_ ∈ idsInCommon (filterTable key increased t) (filterTable key decreased t) :=
      List.mem_dedup.mpr (List.mem_filter.mpr ⟨h1, by simpa using h2⟩)
    exact List.count_eq_one_of_mem (List.nodup_dedup _) hmem
  · intro hnone
    have : idsInCommon (filterTable key increased t) (filterTable key decreased t) = [] := by
      unfold idsInCommon
      rw [List.filter_eq_nil_iff.mpr]
      · rfl
      · intro a ha hmem
        exact hnone a ⟨ha, by simpa using hmem⟩
    rw [this]
    rfl

/-- C5 witness: instantiation on the concrete table, whose three samples all
lie on both filtered tables' sample axes. -/
theorem compute_index_entries_in_common_samples_witness :
    (∀ p ∈ [("S1", Score.ln 2), ("S2", Score.nan), ("S3", Score.negInf)],
        p.1 ∈ (filterTable "taxonomy" ({"A"} : Finset String) tW).sampleIds ∧
        p.1 ∈ (filterTable "taxonomy" ({"B"} : Finset String) tW).sampleIds) ∧
    (∀ id_ : String, id_ ∈ (filterTable "taxonomy" ({"A"} : Finset String) tW).sampleIds →
      id_ ∈ (filterTable "taxonomy" ({"B"} : Finset String) tW).sampleIds →
      (([("S1", Score.ln 2), ("S2", Score.nan), ("S3", Score.negInf)]).map Prod.fst).count id_
        = 1) ∧
    ((∀ id_ : String, ¬(id_ ∈ (filterTable "taxonomy" ({"A"} : Finset String) tW).sampleIds ∧
        id_ ∈ (filterTable "taxonomy" ({"B"} : Finset String) tW).sampleIds)) →
      ([("S1", Score.ln 2), ("S2", Score.nan), ("S3", Score.negInf)]
        : List (String × Score)) = []) :=
  compute_index_entries_in_common_samples tW {"A"} {"B"} "taxonomy" _ tW_eval

/-- C6: an observation (with token list `toks` at `key`) belongs to the
increased-filtered table iff `toks` intersects `increased`, symmetrically
for `decreased`, and an observation intersecting both sets belongs to both
sub-tables. -/
theorem filterTable_membership_iff (t : Table) (increased decreased : Finset String)
    (key : String) (o : Obs) (toks : List String) (ho : o ∈ t.obs)
    (htoks : o.md.lookup key = some toks) :
    (o ∈ (filterTable key increased t).obs ↔ (toks.toFinset ∩ increased).Nonempty) ∧
    (o ∈ (filterTable key decreased t).obs ↔ (toks.toFinset ∩ decreased).Nonempty) ∧
    ((toks.toFinset ∩ increased).Nonempty → (toks.toFinset ∩ decreased).Nonempty →
      o ∈ (filterTable key increased t).obs ∧ o ∈ (filterTable key decreased t).obs) := by
  have hgen : ∀ group : Finset String,
      o ∈ (filterTable key group t).obs ↔ (toks.toFinset ∩ group).Nonempty := by
    intro group
    unfold filterTable
    simp only [List.mem_filter]
    constructor
    · intro hm
      have := hm.2
      unfold matchesGroup at this
      rw [htoks] at this
      simpa using this
    · intro hne
      refine ⟨ho, ?_⟩
      unfold matchesGroup
      rw [htoks]
      simpa using hne
  exact ⟨hgen increased, hgen decreased,
    fun h1 h2 => ⟨(hgen increased).mpr h1, (hgen decreased).mpr h2⟩⟩

/-- C6 witness: the concrete observation annotated `["A"]` is kept by the
`{A}` filter and rejected by the `{B}` filter. -/
theorem filterTable_membership_iff_witness :
    (oW1 ∈ (filterTable "taxonomy" ({"A"} : Finset String) tW).obs ↔
      ((["A"] : List String).toFinset ∩ ({"A"} : Finset String)).Nonempty) ∧
    (oW1 ∈ (filterTable "taxonomy" ({"B"} : Finset String) tW).obs ↔
      ((["A"] : List String).toFinset ∩ ({"B"} : Finset String)).Nonempty) ∧
    (((["A"] : List String).toFinset ∩ ({"A"} : Finset String)).Nonempty →
      ((["A"] : List String).toFinset ∩ ({"B"} : Finset String)).Nonempty →
      oW1 ∈ (filterTable "taxonomy" ({"A"} : Finset String) tW).obs ∧
      oW1 ∈ (filterTable "taxonomy" ({"B"} : Finset String) tW).obs) :=
  filterTable_membership_iff tW {"A"} {"B"} "taxonomy" oW1 ["A"]
    (List.mem_cons_self oW1 [oW2]) rfl

/-- C7: both error kinds fire before any result is produced: on every input
that triggers a Missing-Key or Empty-Group condition, `compute_index`
returns an error and emits zero result pairs. -/
theorem compute_index_fail_fast (t : Table) (increased decreased : Finset String)
    (key : String) (o0 : Obs) (h0 : t.obs.head? = some o0)
    (htrig : o0.md.lookup key = none ∨
      t.obs.all (fun o => (o.md.lookup key).isSome) = false ∨
      (t.obs.all (fun o => (o.md.lookup key).isSome) = true ∧
        ((filterTable key increased t).obs = [] ∨
         (filterTable key decreased t).obs = []))) :
    (∃ e : Err, compute_index t increased decreased key = Except.error e) ∧
    ∀ res : List (String × Score),
      compute_index t increased decreased key ≠ Except.ok res := by
  have herr : ∃ e : Err, compute_index t increased decreased key = Except.error e := by
    rcases htrig with hk | hall | ⟨hall, hemp | hemp⟩
    · exact ⟨_, compute_index_error_of_missing_key t increased decreased key o0 h0 hk⟩
    · cases hko : o0.md.lookup key with
      | none => exact ⟨_, compute_index_error_of_missing_key t increased decreased key o0 h0 hko⟩
      | some toks =>
        exact ⟨_, compute_index_error_of_partial_key t increased decreased key o0 h0
          (by rw [hko]; rfl) hall⟩
    · exact ⟨_, compute_index_error_of_inc_empty t increased decreased key o0 h0 hall hemp⟩
    · by_cases hie : (filterTable key increased t).obs = []
      · exact ⟨_, compute_index_error_of_inc_empty t increased decreased key o0 h0 hall hie⟩
      · exact ⟨_, compute_index_error_of_dec_empty t increased decreased key o0 h0 hall hie hemp⟩
  obtain ⟨e, he⟩ := herr
  exact ⟨⟨e, he⟩, fun res hres => by rw [he] at hres; exact Except.noConfusion hres⟩

/-- C7 witness: the Missing-Key trigger on the concrete table, with key
`foo`, yields an error and no result pairs. -/
theorem compute_index_fail_fast_witness :
    (∃ e : Err, compute_index tW {"A"} {"B"} "foo" = Except.error e) ∧
    ∀ res : List (String × Score),
      compute_index tW {"A"} {"B"} "foo" ≠ Except.ok res :=
  compute_index_fail_fast tW {"A"} {"B"} "foo" oW1 rfl (Or.inl rfl)

/-- C8: observation-axis filtering removes no samples — both filtered tables
keep the input's full sample axis — so a successful run emits exactly one
score per sample of the input table's sample axis. -/
theorem compute_index_full_sample_axis (t : Table) (increased decreased : Finset String)
    (key : String) (res : List (String × Score))
    (h : compute_index t increased decreased key = Except.ok res) :
    (∀ group : Finset String, (filterTable key group t).sampleIds = t.sampleIds) ∧
    res.map Prod.fst = t.sampleIds.dedup ∧
    (∀ id_ : String, id_ ∈ res.map Prod.fst ↔ id_ ∈ t.sampleIds) ∧
    (res.map Prod.fst).Nodup := by
  have hres := compute_index_ok_shape t increased decreased key res h
  subst hres
  have hids : idsInCommon (filterTable key increased t) (filterTable key decreased t) =
      t.sampleIds.dedup := by
    unfold idsInCommon filterTable
    congr 1
    apply List.filter_eq_self.mpr
    intro a ha
    simpa using ha
  refine ⟨fun _ => rfl, ?_, ?_, ?_⟩
  · rw [map_fst_map_pair, hids]
  · intro id_
    rw [map_fst_map_pair, hids]
    exact List.mem_dedup
  · rw [map_fst_map_pair, hids]
    exact List.nodup_dedup _

/-- C8 witness: instantiation on the concrete table — the emitted ids are
exactly its sample axis `S1, S2, S3`, one score each. -/
theorem compute_index_full_sample_axis_witness :
    (∀ group : Finset String, (filterTable "taxonomy" group tW).sampleIds = tW.sampleIds) ∧
    ([("S1", Score.ln 2), ("S2", Score.nan), ("S3", Score.negInf)]).map Prod.fst =
      tW.sampleIds.dedup ∧
    (∀ id_ : String,
      id_ ∈ ([("S1", Score.ln 2), ("S2", Score.nan), ("S3", Score.negInf)]).map Prod.fst ↔
      id_ ∈ tW.sampleIds) ∧
    (([("S1", Score.ln 2), ("S2", Score.nan), ("S3", Score.negInf)]).map Prod.fst).Nodup :=
  compute_index_full_sample_axis tW {"A"} {"B"} "taxonomy" _ tW_eval

/-- C9: two runs with identical inputs produce the same set of result pairs
even though the enumeration order of `ids_in_common` may differ between
calls: successful runs under any two orderings that are permutations of one
another yield permuted (hence, as unordered collections, identical) result
lists, and `compute_index` itself is one such run. -/
theorem compute_index_deterministic_up_to_order (t : Table)
    (increased decreased : Finset String) (key : String) (ord₁ ord₂ : List String)
    (hperm : ord₁.Perm ord₂) (res₁ res₂ : List (String × Score))
    (h₁ : compute_indexWithOrder t increased decreased key ord₁ = Except.ok res₁)
    (h₂ : compute_indexWithOrder t increased decreased key ord₂ = Except.ok res₂) :
    res₁.Perm res₂ ∧
    compute_index t increased decreased key =
      compute_indexWithOrder t increased decreased key
        (idsInCommon (filterTable key increased t) (filterTable key decreased t)) := by
  refine ⟨?_, rfl⟩
  rw [compute_indexWithOrder_ok_shape t increased decreased key ord₁ res₁ h₁,
      compute_indexWithOrder_ok_shape t increased decreased key ord₂ res₂ h₂]
  exact hperm.map _

/-- C9 witness: the concrete table run in the canonical order and in the
reversed order yields permuted result lists. -/
theorem compute_index_deterministic_up_to_order_witness :
    ([("S1", Score.ln 2), ("S2", Score.nan), ("S3", Score.negInf)] : List (String × Score)).Perm
      [("S3", Score.negInf), ("S2", Score.nan), ("S1", Score.ln 2)] ∧
    compute_index tW {"A"} {"B"} "taxonomy" =
      compute_indexWithOrder tW {"A"} {"B"} "taxonomy"
        (idsInCommon (filterTable "taxonomy" ({"A"} : Finset String) tW)
                     (filterTable "taxonomy" ({"B"} : Finset String) tW)) :=
  compute_index_deterministic_up_to_order tW {"A"} {"B"} "taxonomy"
    ["S1", "S2", "S3"] ["S3", "S2", "S1"] (by decide) _ _ tW_eval tW_eval_rev

/-- C10: for every sample in the intersection whose increased-group sum is 0
and whose decreased-group sum is nonzero, the emitted score is -infinity:
the zero test guards only `dec_count`, and a zero `inc_count` goes through
`log(0) = -inf` with no special case. -/
theorem compute_index_zero_inc_neg_inf (t : Table) (increased decreased : Finset String)
    (key : String) (res : List (String × Score))
    (h : compute_index t increased decreased key = Except.ok res) (id_ : String)
    (hid : id_ ∈ idsInCommon (filterTable key increased t) (filterTable key decreased t))
    (hinc : sampleSum (filterTable key increased t) id_ = 0)
    (hdec : sampleSum (filterTable key decreased t) id_ ≠ 0) :
    (id_, Score.negInf) ∈ res ∧
    ∀ d : ℚ, d ≠ 0 → computeScore 0 d = Score.negInf := by
  have hres := compute_index_ok_shape t increased decreased key res h
  subst hres
  constructor
  · refine List.mem_map.mpr ⟨id_, hid, ?_⟩
    simp [computeScore, hdec, hinc, npLog]
  · intro d hd
    simp [computeScore, hd, npLog]

/-- C10 witness: on the concrete table, sample `S3` has increased sum 0 and
decreased sum 5; the emitted score is -infinity. -/
theorem compute_index_zero_inc_neg_inf_witness :
    ("S3", Score.negInf) ∈ [("S1", Score.ln 2), ("S2", Score.nan), ("S3", Score.negInf)] ∧
    ∀ d : ℚ, d ≠ 0 → computeScore 0 d = Score.negInf :=
  compute_index_zero_inc_neg_inf tW {"A"} {"B"} "taxonomy" _ tW_eval "S3" (by decide)
    (by rw [show sampleSum (filterTable "taxonomy" ({"A"} : Finset String) tW) "S3" = 0 + 0
              from rfl]
        simp)
    (by rw [show sampleSum (filterTable "taxonomy" ({"B"} : Finset String) tW) "S3" = 5 + 0
              from rfl]
        simp)
